import Mathlib

set_option maxHeartbeats 2000000

/-!
# Verification of the MITRE data-scrape pipeline

Shallow embedding of the three scripts of the repository:

* `scripts/extract_mitre_urls.py` (technique-URL reference scanner),
* `scripts/extract_mitre_mitigation_urls.py` (mitigation-URL reference scanner),
* `scripts/save_urls_to_texts.py` (page-text harvester).

JSON documents are modelled by an inductive `JsonValue`; a file that fails to
read or parse is modelled as `none : Option JsonValue`.  Python strings are
modelled as `String`/`List Char`; the scripts only ever feed ASCII data to the
case-conversion and character-class primitives, which we model on the ASCII
range.
-/

/-- ASCII lower-casing of one character, as Python `str.lower` acts on the
ASCII range (the scripts only lower-case URLs and filenames). -/
def asciiLower (c : Char) : Char :=
  if 'A' ≤ c ∧ c ≤ 'Z' then Char.ofNat (c.toNat + 32) else c

/-- ASCII upper-casing of one character, as Python `str.upper` acts on the
ASCII range. -/
def asciiUpper (c : Char) : Char :=
  if 'a' ≤ c ∧ c ≤ 'z' then Char.ofNat (c.toNat - 32) else c

/-- Python `s.upper()` on the ASCII range. -/
def pyUpper (s : String) : String :=
  String.mk (s.toList.map asciiUpper)

/-- The character class `[A-Za-z0-9._\-]` of `sanitize_filename_from_url`
(`scripts/save_urls_to_texts.py`, line 58). -/
def safeChar (c : Char) : Bool :=
  c.isAlpha || c.isDigit || c == '.' || c == '_' || c == '-'

/-- Python `s.endswith(suf)` on character lists. -/
def listEndsWith (l suf : List Char) : Bool :=
  l.reverse.take suf.length == suf.reverse

/-- `re.sub(r'^https?://', '', url, flags=re.I)`: strip one leading scheme,
case-insensitively (`scripts/save_urls_to_texts.py`, line 55). -/
def stripScheme (cs : List Char) : List Char :=
  if (cs.take 8).map asciiLower = "https://".toList then cs.drop 8
  else if (cs.take 7).map asciiLower = "http://".toList then cs.drop 7
  else cs

/-- `name[-180:]` applied only when `len(name) > 180`
(`scripts/save_urls_to_texts.py`, lines 59 and 60). -/
def truncate180 (l : List Char) : List Char :=
  if l.length > 180 then l.drop (l.length - 180) else l

/-- `if not name.lower().endswith('.txt'): name = name + '.txt'`
(`scripts/save_urls_to_texts.py`, lines 61 and 62). -/
def ensureTxt (l : List Char) : List Char :=
  if listEndsWith (l.map asciiLower) ".txt".toList then l else l ++ ".txt".toList

/-- The whole body of `sanitize_filename_from_url`
(`scripts/save_urls_to_texts.py`, lines 54 to 63), stage by stage:
scheme strip, `split('?', 1)[0]`, `split('#', 1)[0]`, `replace('/', '_')`,
`re.sub(r'[^A-Za-z0-9._\-]', '_', name)`, right truncation, `.txt` suffix. -/
def sanitizeChars (cs : List Char) : List Char :=
  ensureTxt (truncate180
    (((((stripScheme cs).takeWhile (fun c => c != '?')).takeWhile
        (fun c => c != '#')).map
          (fun c => if c == '/' then '_' else c)).map
            (fun c => if safeChar c then c else '_')))

/-- `sanitize_filename_from_url` (`scripts/save_urls_to_texts.py`,
lines 54 to 63). -/
def sanitize_filename_from_url (url : String) : String :=
  String.mk (sanitizeChars url.toList)

/-- The output path `output_dir / fname` computed by `run_all`
(`scripts/save_urls_to_texts.py`, lines 109 and 110). -/
def outPath (dir url : String) : String :=
  dir ++ "/" ++ sanitize_filename_from_url url

/-- The file system after a sequence of path/content writes, each performed by
`outpath.write_text` (`scripts/save_urls_to_texts.py`, line 94), which
overwrites any earlier content at the same path. -/
def writeSeq (ws : List (String × String)) (p : String) : Option String :=
  ws.foldl (fun acc w => if w.1 == p then some w.2 else acc) none

/-- Every character produced by the substitution stage is in the safe class. -/
theorem all_safe_after_sub (l : List Char) :
    (l.map (fun c => if safeChar c then c else '_')).all safeChar = true := by
  rw [List.all_map, List.all_eq_true]
  intro c _
  by_cases h : safeChar c = true
  · simp [h]
  · simp only [Function.comp_apply]
    rw [if_neg h]
    decide

/-- Truncation keeps only characters of the input list. -/
theorem truncate180_all {l : List Char} (h : l.all safeChar = true) :
    (truncate180 l).all safeChar = true := by
  rw [List.all_eq_true] at h ⊢
  intro c hc
  unfold truncate180 at hc
  by_cases hl : l.length > 180
  · rw [if_pos hl] at hc
    exact h c (List.mem_of_mem_drop hc)
  · rw [if_neg hl] at hc
    exact h c hc

/-- Truncation bounds the length by 180. -/
theorem truncate180_length (l : List Char) : (truncate180 l).length ≤ 180 := by
  unfold truncate180
  by_cases hl : l.length > 180
  · rw [if_pos hl, List.length_drop]
    omega
  · rw [if_neg hl]
    omega

/-- The suffix stage always yields a name ending in `.txt` up to case. -/
theorem ensureTxt_endsWith (l : List Char) :
    listEndsWith ((ensureTxt l).map asciiLower) ".txt".toList = true := by
  unfold ensureTxt
  by_cases h : listEndsWith (l.map asciiLower) ".txt".toList = true
  · rw [if_pos h]
    exact h
  · rw [if_neg h, List.map_append]
    have hmap : ".txt".toList.map asciiLower = ".txt".toList := by decide
    rw [hmap]
    unfold listEndsWith
    rw [List.reverse_append]
    have hlen : (".txt".toList.reverse).length = ".txt".toList.length := by
      rw [List.length_reverse]
    rw [← hlen, List.take_left, beq_self_eq_true]

/-- The suffix stage preserves safety of the characters. -/
theorem ensureTxt_all {l : List Char} (h : l.all safeChar = true) :
    (ensureTxt l).all safeChar = true := by
  unfold ensureTxt
  by_cases hc : listEndsWith (l.map asciiLower) ".txt".toList = true
  · rw [if_pos hc]
    exact h
  · rw [if_neg hc, List.all_append, h]
    decide

/-- The suffix stage adds at most four characters. -/
theorem ensureTxt_length (l : List Char) :
    (ensureTxt l).length ≤ l.length + 4 := by
  unfold ensureTxt
  by_cases hc : listEndsWith (l.map asciiLower) ".txt".toList = true
  · rw [if_pos hc]
    omega
  · rw [if_neg hc, List.length_append]
    have : ".txt".toList.length = 4 := by decide
    omega

/-- Truncation then suffixing is bounded by 184 characters. -/
theorem ensureTxt_truncate180_length (l : List Char) :
    (ensureTxt (truncate180 l)).length ≤ 184 := by
  have h1 := ensureTxt_length (truncate180 l)
  have h2 := truncate180_length l
  omega

/-- Combined shape of any sanitized name. -/
theorem sanitizeChars_spec (cs : List Char) :
    (sanitizeChars cs).all safeChar = true ∧
      listEndsWith ((sanitizeChars cs).map asciiLower) ".txt".toList = true ∧
      (sanitizeChars cs).length ≤ 184 := by
  unfold sanitizeChars
  exact ⟨ensureTxt_all (truncate180_all (all_safe_after_sub _)),
    ensureTxt_endsWith _, ensureTxt_truncate180_length _⟩

/-- C1 counterexample: on `"https://attack.mitre.org/techniques/T1548/"` the
sanitizer does not return the claimed `"attack.mitre.org_techniques_T1548.txt"`
— the trailing slash of the URL becomes a trailing underscore before the
suffix is appended. -/
theorem c1_filename_claim_false :
    sanitize_filename_from_url "https://attack.mitre.org/techniques/T1548/" ≠
      "attack.mitre.org_techniques_T1548.txt" := by decide

/-- C1 (amended): the sanitizer maps
`"https://attack.mitre.org/techniques/T1548/"` to
`"attack.mitre.org_techniques_T1548_.txt"`: the scheme is stripped, every
path separator (including the trailing one) is replaced by an underscore, and
the `.txt` suffix is appended. -/
theorem c1_filename_derivation :
    sanitize_filename_from_url "https://attack.mitre.org/techniques/T1548/" =
      "attack.mitre.org_techniques_T1548_.txt" := by decide

/-- C9: for every input string the derived filename uses only characters from
`A-Z`, `a-z`, `0-9`, `.`, `_`, `-`; it ends with `.txt` up to letter case; it
is at most 184 characters long; and the truncation stage bounds the name by
180 characters before the conditionally appended suffix. -/
theorem c9_sanitize_shape (url : String) :
    (sanitize_filename_from_url url).toList.all safeChar = true ∧
      listEndsWith ((sanitize_filename_from_url url).toList.map asciiLower)
        ".txt".toList = true ∧
      (sanitize_filename_from_url url).length ≤ 184 ∧
      ∀ l : List Char, (truncate180 l).length ≤ 180 := by
  unfold sanitize_filename_from_url
  obtain ⟨h1, h2, h3⟩ := sanitizeChars_spec url.toList
  exact ⟨h1, h2, h3, truncate180_length⟩

/-- C10: the filename derivation is not injective — the same address with and
without a query string yields the same filename, hence the same output path,
and sequential writes leave only the later text at that path. -/
theorem c10_sanitize_collision :
    ("https://attack.mitre.org/techniques/T1548" : String) ≠
        "https://attack.mitre.org/techniques/T1548?lang=en" ∧
      sanitize_filename_from_url "https://attack.mitre.org/techniques/T1548" =
        sanitize_filename_from_url
          "https://attack.mitre.org/techniques/T1548?lang=en" ∧
      outPath "text_outputs" "https://attack.mitre.org/techniques/T1548" =
        outPath "text_outputs"
          "https://attack.mitre.org/techniques/T1548?lang=en" ∧
      writeSeq
          [(outPath "text_outputs" "https://attack.mitre.org/techniques/T1548",
              "earlier text"),
            (outPath "text_outputs"
                "https://attack.mitre.org/techniques/T1548?lang=en",
              "later text")]
          (outPath "text_outputs" "https://attack.mitre.org/techniques/T1548") =
        some "later text" := by
  refine ⟨by decide, by decide, by decide, by decide⟩

/-! ## JSON model and the two reference scanners -/

/-- JSON values as produced by Python's `json.load`.  Numbers are modelled as
integers; the scanners never compute with numbers, they only test types and
compare strings. -/
inductive JsonValue : Type where
  | null : JsonValue
  | bool (b : Bool) : JsonValue
  | num (n : Int) : JsonValue
  | str (s : String) : JsonValue
  | arr (elems : List JsonValue) : JsonValue
  | obj (fields : List (String × JsonValue)) : JsonValue

/-- Python `d.get(key)` for a parsed JSON value: `some` exactly when `d` is a
dict containing the key (first occurrence; Python dict keys are unique). -/
def JsonValue.get? : JsonValue → String → Option JsonValue
  | .obj fields, key => (fields.find? (fun p => p.1 == key)).map (fun p => p.2)
  | _, _ => none

/-- Python `isinstance(v, dict)`. -/
def JsonValue.isDict : JsonValue → Bool
  | .obj _ => true
  | _ => false

/-- `ref.get('source_name') == 'mitre-attack'`: a JSON value compares equal to
a Python string only when it is that string
(`extract_mitre_urls.py` line 38, `extract_mitre_mitigation_urls.py` line 40). -/
def sourceIsMitre (ref : JsonValue) : Bool :=
  match ref.get? "source_name" with
  | some (.str s) => s == "mitre-attack"
  | _ => false

/-- `obj.get('type') != 'attack-pattern'` filter of the technique scanner
(`extract_mitre_urls.py` line 33). -/
def typeIsAttackPattern (o : JsonValue) : Bool :=
  match o.get? "type" with
  | some (.str s) => s == "attack-pattern"
  | _ => false

/-- `obj.get('external_references', []) or []`
(`extract_mitre_urls.py` line 35, `extract_mitre_mitigation_urls.py` line 37).
A present value that is not a list is either falsy (then `or []` yields `[]`),
or truthy, in which case Python iterates it: dict and string iteration yield
only non-dict items, which the loop body skips, and other truthy values raise
and abort the scan; no reference record and hence no URL can arise, so it is
modelled as the empty list. -/
def externalRefs (o : JsonValue) : List JsonValue :=
  match o.get? "external_references" with
  | some (.arr l) => l
  | _ => []

/-- The `objects` field when the parsed file is a dict and the field is a list
(`extract_mitre_urls.py` lines 26 to 28,
`extract_mitre_mitigation_urls.py` lines 28 to 30). -/
def objectsList (d : JsonValue) : Option (List JsonValue) :=
  match d.get? "objects" with
  | some (.arr l) => some l
  | _ => none

/-- Python `sub in s` substring test. -/
def strContains (s sub : String) : Bool :=
  (s.toList.tails).any (fun t => sub.toList.isPrefixOf t)

/-- Python `s.rstrip('/')`: drop every trailing slash. -/
def pyRstripSlashes (s : String) : String :=
  String.mk ((s.toList.reverse.dropWhile (fun c => c == '/')).reverse)

/-- The `external_id` branch of the mitigation scanner
(`extract_mitre_mitigation_urls.py` lines 45, 52 and 53):
`ext_id = ref.get('external_id', '')`, then
`if ext_id and isinstance(ext_id, str) and ext_id.upper().startswith('M')`,
synthesize `https://attack.mitre.org/mitigations/<ext_id.upper()>`.
An absent key defaults to the falsy `''` and a non-string value fails the
`isinstance` test, so both contribute nothing. -/
def extIdUrls (r : JsonValue) : List String :=
  match r.get? "external_id" with
  | some (.str s) =>
      if s != "" && "M".toList.isPrefixOf (pyUpper s).toList then
        ["https://attack.mitre.org/mitigations/" ++ pyUpper s]
      else []
  | _ => []

/-- The accepted-record body of the mitigation scanner
(`extract_mitre_mitigation_urls.py` lines 44 to 53): prefer an explicit `url`
that contains `/mitigations/` (Python `if url and '/mitigations/' in url`,
where an absent or falsy `url` fails the test; a truthy non-string `url`
would raise a `TypeError` on the `in` test and abort the whole scan, so no
URL can arise from it), stripping trailing slashes; otherwise fall through to
the `external_id` synthesis. -/
def refMitCore (r : JsonValue) : List String :=
  match r.get? "url" with
  | some (.str s) =>
      if s != "" && strContains s "/mitigations/" then [pyRstripSlashes s]
      else extIdUrls r
  | _ => extIdUrls r

/-- One reference record of the mitigation scanner: non-dict entries and
records with a foreign `source_name` are skipped
(`extract_mitre_mitigation_urls.py` lines 38 to 41). -/
def refMitUrls (r : JsonValue) : List String :=
  if r.isDict && sourceIsMitre r then refMitCore r else []

/-- One element of `objects` for the mitigation scanner: non-dict elements are
skipped, every dict's reference list is scanned
(`extract_mitre_mitigation_urls.py` lines 32 to 37). -/
def objMitUrls (o : JsonValue) : List String :=
  if o.isDict then (externalRefs o).flatMap refMitUrls else []

/-- One parsed JSON document for the mitigation scanner
(`extract_mitre_mitigation_urls.py` lines 28 to 30). -/
def dataMitUrls (d : JsonValue) : List String :=
  match objectsList d with
  | some objs => objs.flatMap objMitUrls
  | none => []

/-- One file for the mitigation scanner: a file that failed to read or parse
(`none`) is skipped by the `except: continue`
(`extract_mitre_mitigation_urls.py` lines 21 to 26). -/
def fileMitUrls : Option JsonValue → List String
  | none => []
  | some d => dataMitUrls d

/-- `extract_mitigation_urls` (`extract_mitre_mitigation_urls.py` lines 18
to 55): the set of URLs collected over all files. -/
def extract_mitigation_urls (files : List (Option JsonValue)) : Finset String :=
  (files.flatMap fileMitUrls).toFinset

/-- One reference record of the technique scanner
(`extract_mitre_urls.py` lines 35 to 39): require a dict, the MITRE
`source_name`, and a present `url` key, then add `ref['url']` to the set.
A present non-string `url` value would be added by Python and then crash
`main` at the sort (`rstrip` on a non-string); it never yields an output
line, and is not collected here. -/
def refTechUrls (r : JsonValue) : List String :=
  if r.isDict && sourceIsMitre r then
    match r.get? "url" with
    | some (.str s) => [s]
    | _ => []
  else []

/-- One element of `objects` for the technique scanner: non-dict elements and
objects whose `type` is not `attack-pattern` are skipped
(`extract_mitre_urls.py` lines 30 to 34). -/
def objTechUrls (o : JsonValue) : List String :=
  if o.isDict && typeIsAttackPattern o then (externalRefs o).flatMap refTechUrls
  else []

/-- One parsed JSON document for the technique scanner
(`extract_mitre_urls.py` lines 26 to 28). -/
def dataTechUrls (d : JsonValue) : List String :=
  match objectsList d with
  | some objs => objs.flatMap objTechUrls
  | none => []

/-- One file for the technique scanner (`extract_mitre_urls.py` lines 18
to 23). -/
def fileTechUrls : Option JsonValue → List String
  | none => []
  | some d => dataTechUrls d

/-- `extract_urls` (`extract_mitre_urls.py` lines 15 to 41). -/
def extract_urls (files : List (Option JsonValue)) : Finset String :=
  (files.flatMap fileTechUrls).toFinset

/-! ## The output stage: sort key, sorting and writing -/

/-- The sort key `u.rstrip('/').split('/')[-1]`
(`extract_mitre_urls.py` lines 59 and 60,
`extract_mitre_mitigation_urls.py` lines 73 and 74): the final path segment
of the URL, as its character list. -/
def keyfn (u : String) : List Char :=
  ((pyRstripSlashes u).toList.reverse.takeWhile (fun c => c != '/')).reverse

/-- Comparison used by `sorted(urls, key=keyfn)`: keys are Python strings
compared lexicographically by code point, which is the lexicographic order on
`List Char`. -/
def keyLe (a b : String) : Prop := keyfn a ≤ keyfn b

instance : DecidableRel keyLe := fun a b =>
  inferInstanceAs (Decidable (keyfn a ≤ keyfn b))

instance : IsTotal String keyLe := ⟨fun a b => le_total (keyfn a) (keyfn b)⟩

instance : IsTrans String keyLe := ⟨fun _ _ _ h1 h2 => le_trans h1 h2⟩

/-- `sorted(urls, key=keyfn)` on an iteration order of the set: Python's sort
is stable, and `List.insertionSort` with a `≤`-style relation is the stable
sort by that key. -/
def sortUrls (l : List String) : List String := List.insertionSort keyLe l

/-- The lines written by the technique scanner's `main`
(`extract_mitre_urls.py` lines 64 to 66): sorted, then each line is
`u.rstrip('/')`. -/
def techniqueWrittenLines (l : List String) : List String :=
  (sortUrls l).map pyRstripSlashes

/-- The lines written by the mitigation scanner's `main`
(`extract_mitre_mitigation_urls.py` lines 78 to 80): sorted, each set element
written verbatim. -/
def mitigationWrittenLines (l : List String) : List String :=
  sortUrls l

/-- The byte content of an output file: each line followed by `'\n'`
(`extract_mitre_urls.py` line 66, `extract_mitre_mitigation_urls.py`
line 80). -/
def renderLines (ls : List String) : String :=
  String.join (ls.map (fun u => u ++ "\n"))

/-- Full output file content of the technique scanner for one iteration order
of its URL set. -/
def techniqueOutput (l : List String) : String :=
  renderLines (techniqueWrittenLines l)

/-- Full output file content of the mitigation scanner for one iteration
order of its URL set. -/
def mitigationOutput (l : List String) : String :=
  renderLines (mitigationWrittenLines l)

/-- Effect of the technique scanner's `main` on the output file
(`extract_mitre_urls.py` lines 53 to 66): when the extracted set is empty it
returns before opening the file, leaving any previous content `fs` in place;
otherwise it writes the sorted lines for the iteration order `enum` of the
set. -/
def techniqueMainFs (files : List (Option JsonValue)) (enum : List String)
    (fs : Option String) : Option String :=
  if extract_urls files = ∅ then fs else some (techniqueOutput enum)

/-- Effect of the mitigation scanner's `main` on the output file
(`extract_mitre_mitigation_urls.py` lines 67 to 80). -/
def mitigationMainFs (files : List (Option JsonValue)) (enum : List String)
    (fs : Option String) : Option String :=
  if extract_mitigation_urls files = ∅ then fs else some (mitigationOutput enum)

/-- C5: a file that fails to read or parse as JSON contributes nothing to
either scanner's result and does not abort the scan — dropping it from the
file list leaves the result unchanged, and each result set is exactly the
union (concatenated then deduplicated) of the per-file results over the
files that did parse. -/
theorem c5_invalid_file_skipped (pre post : List (Option JsonValue)) :
    extract_urls (pre ++ none :: post) = extract_urls (pre ++ post) ∧
      extract_mitigation_urls (pre ++ none :: post) =
        extract_mitigation_urls (pre ++ post) ∧
      (∀ files : List (Option JsonValue),
        extract_urls files = ((files.filterMap id).flatMap dataTechUrls).toFinset) ∧
      (∀ files : List (Option JsonValue),
        extract_mitigation_urls files =
          ((files.filterMap id).flatMap dataMitUrls).toFinset) := by
  refine ⟨?_, ?_, ?_, ?_⟩
  · simp [extract_urls, List.flatMap_append, fileTechUrls]
  · simp [extract_mitigation_urls, List.flatMap_append, fileMitUrls]
  · intro files
    unfold extract_urls
    congr 1
    induction files with
    | nil => rfl
    | cons f t ih =>
      cases f with
      | none => simpa [fileTechUrls] using ih
      | some d => simp [fileTechUrls, ih]
  · intro files
    unfold extract_mitigation_urls
    congr 1
    induction files with
    | nil => rfl
    | cons f t ih =>
      cases f with
      | none => simpa [fileMitUrls] using ih
      | some d => simp [fileMitUrls, ih]

/-- C6: whenever a scanner's extracted URL set is empty its `main` returns
without writing to or creating the output file, so the output file's prior
state is unchanged. -/
theorem c6_empty_set_no_write (files : List (Option JsonValue))
    (enum : List String) (fs : Option String) :
    (extract_urls files = ∅ → techniqueMainFs files enum fs = fs) ∧
      (extract_mitigation_urls files = ∅ → mitigationMainFs files enum fs = fs) := by
  constructor
  · intro h
    simp [techniqueMainFs, h]
  · intro h
    simp [mitigationMainFs, h]

/-- Witness for C6 at a concrete input: a single file whose JSON carries no
MITRE references at all. -/
theorem c6_empty_set_no_write_witness :
    extract_urls [some (JsonValue.obj [("objects", JsonValue.arr [])])] = ∅ ∧
      techniqueMainFs [some (JsonValue.obj [("objects", JsonValue.arr [])])] []
          (some "prior") = some "prior" ∧
      extract_mitigation_urls [some (JsonValue.obj [("objects", JsonValue.arr [])])] = ∅ ∧
      mitigationMainFs [some (JsonValue.obj [("objects", JsonValue.arr [])])] []
          (some "prior") = some "prior" :=
  ⟨by decide,
    (c6_empty_set_no_write [some (JsonValue.obj [("objects", JsonValue.arr [])])]
        [] (some "prior")).1 (by decide),
    by decide,
    (c6_empty_set_no_write [some (JsonValue.obj [("objects", JsonValue.arr [])])]
        [] (some "prior")).2 (by decide)⟩

/-- C7: the scanner sorts by the final path segment compared lexically; on
URLs with trailing identifiers `T1059.001`, `T1003`, `T1548` the written
order is `T1003`, `T1059.001`, `T1548`, whatever order the set iteration
produced. -/
theorem c7_sort_by_trailing_segment :
    keyfn "https://attack.mitre.org/techniques/T1059.001" = "T1059.001".toList ∧
      keyfn "https://attack.mitre.org/techniques/T1003/" = "T1003".toList ∧
      techniqueWrittenLines
          ["https://attack.mitre.org/techniques/T1059.001",
            "https://attack.mitre.org/techniques/T1003",
            "https://attack.mitre.org/techniques/T1548"] =
        ["https://attack.mitre.org/techniques/T1003",
          "https://attack.mitre.org/techniques/T1059.001",
          "https://attack.mitre.org/techniques/T1548"] := by
  refine ⟨by decide, by decide, by decide⟩

/-! ## The reference records visited by the mitigation scanner -/

/-- The reference list scanned inside one element of `objects`
(mirrors the loop nesting of `extract_mitre_mitigation_urls.py`
lines 32 to 37). -/
def objRefs (o : JsonValue) : List JsonValue :=
  if o.isDict then externalRefs o else []

/-- The reference records of one parsed document, in traversal order. -/
def dataRefs (d : JsonValue) : List JsonValue :=
  match objectsList d with
  | some objs => objs.flatMap objRefs
  | none => []

/-- The reference records of one file. -/
def fileRefs : Option JsonValue → List JsonValue
  | none => []
  | some d => dataRefs d

/-- All reference-list entries visited by the mitigation scanner, in
traversal order. -/
def allMitRefs (files : List (Option JsonValue)) : List JsonValue :=
  files.flatMap fileRefs

/-- The visited entries that are reference records (dicts) carrying the MITRE
provenance constant — the ones whose body the scanner actually inspects. -/
def relevantMitRefs (files : List (Option JsonValue)) : List JsonValue :=
  (allMitRefs files).filter (fun r => r.isDict && sourceIsMitre r)

theorem objMitUrls_eq_refs (o : JsonValue) :
    objMitUrls o = (objRefs o).flatMap refMitUrls := by
  unfold objMitUrls objRefs
  by_cases h : o.isDict = true <;> simp [h]

theorem dataMitUrls_eq_refs (d : JsonValue) :
    dataMitUrls d = (dataRefs d).flatMap refMitUrls := by
  unfold dataMitUrls dataRefs
  cases objectsList d with
  | none => rfl
  | some objs =>
      rw [List.flatMap_assoc]
      exact List.flatMap_congr (fun o _ => objMitUrls_eq_refs o)

theorem extract_mit_eq_allRefs (files : List (Option JsonValue)) :
    files.flatMap fileMitUrls = (allMitRefs files).flatMap refMitUrls := by
  unfold allMitRefs
  rw [List.flatMap_assoc]
  refine List.flatMap_congr (fun f _ => ?_)
  cases f with
  | none => rfl
  | some d => exact dataMitUrls_eq_refs d

theorem flatMap_refMitUrls_eq_filter (l : List JsonValue) :
    l.flatMap refMitUrls =
      (l.filter (fun r => r.isDict && sourceIsMitre r)).flatMap refMitCore := by
  induction l with
  | nil => rfl
  | cons r t ih =>
    rw [List.flatMap_cons, List.filter_cons]
    by_cases h : (r.isDict && sourceIsMitre r) = true
    · rw [if_pos h, List.flatMap_cons, ih]
      unfold refMitUrls
      rw [if_pos h]
    · rw [if_neg h, ih]
      unfold refMitUrls
      rw [if_neg h, List.nil_append]

/-- The mitigation scanner's set, expressed over the relevant reference
records only. -/
theorem extract_mit_eq_relevant (files : List (Option JsonValue)) :
    extract_mitigation_urls files =
      ((relevantMitRefs files).flatMap refMitCore).toFinset := by
  unfold extract_mitigation_urls relevantMitRefs
  rw [extract_mit_eq_allRefs, flatMap_refMitUrls_eq_filter]

/-- C3: whenever the scanned JSON contains exactly one reference record whose
`source_name` is the MITRE provenance constant, and that record has no `url`
field and `external_id` equal to `"M1234"`, the mitigation scanner's result
set is exactly `{"https://attack.mitre.org/mitigations/M1234"}`. -/
theorem c3_single_external_id (files : List (Option JsonValue)) (r : JsonValue)
    (hone : relevantMitRefs files = [r])
    (hurl : r.get? "url" = none)
    (hid : r.get? "external_id" = some (JsonValue.str "M1234")) :
    extract_mitigation_urls files =
      {"https://attack.mitre.org/mitigations/M1234"} := by
  rw [extract_mit_eq_relevant, hone]
  have hcore : refMitCore r = ["https://attack.mitre.org/mitigations/M1234"] := by
    unfold refMitCore
    rw [hurl]
    unfold extIdUrls
    rw [hid]
    decide
  rw [List.flatMap_cons, List.flatMap_nil, List.append_nil, hcore]
  rfl

/-- The single reference record used to witness C3. -/
def mitRefM1234 : JsonValue :=
  JsonValue.obj
    [("source_name", JsonValue.str "mitre-attack"),
      ("external_id", JsonValue.str "M1234")]

/-- A STIX-like bundle containing exactly the C3 witness record. -/
def mitBundleM1234 : JsonValue :=
  JsonValue.obj
    [("objects", JsonValue.arr
      [JsonValue.obj
        [("type", JsonValue.str "course-of-action"),
          ("external_references", JsonValue.arr [mitRefM1234])]])]

/-- Witness for C3 at a concrete single-record bundle. -/
theorem c3_single_external_id_witness :
    relevantMitRefs [some mitBundleM1234] = [mitRefM1234] ∧
      extract_mitigation_urls [some mitBundleM1234] =
        {"https://attack.mitre.org/mitigations/M1234"} :=
  ⟨rfl, c3_single_external_id [some mitBundleM1234] mitRefM1234 rfl rfl rfl⟩

/-! ## Trailing slashes on output lines (C4) -/

theorem take_one_dropWhile_slash :
    ∀ l : List Char, ((l.dropWhile (fun c => c == '/')).take 1 == ['/']) = false := by
  intro l
  induction l with
  | nil => rfl
  | cons c t ih =>
    rw [List.dropWhile_cons]
    by_cases h : (c == '/') = true
    · rw [if_pos h]
      exact ih
    · rw [if_neg h]
      simp only [List.take_succ_cons, List.take_zero]
      rw [beq_eq_false_iff_ne]
      intro heq
      injection heq with h1 _
      exact h (beq_iff_eq.mpr h1)

/-- `u.rstrip('/')` never ends in a slash. -/
theorem pyRstripSlashes_no_trailing (s : String) :
    listEndsWith (pyRstripSlashes s).toList "/".toList = false := by
  show ((((s.toList.reverse.dropWhile (fun c => c == '/')).reverse).reverse.take
      ("/".toList.length)) == "/".toList.reverse) = false
  rw [List.reverse_reverse]
  exact take_one_dropWhile_slash s.toList.reverse

/-- The explicit-url branch of the mitigation scanner when the `url` field
holds a string. -/
theorem refMitCore_url_str (r : JsonValue) (s : String)
    (hurl : r.get? "url" = some (JsonValue.str s)) :
    refMitCore r =
      if s != "" && strContains s "/mitigations/" then [pyRstripSlashes s]
      else extIdUrls r := by
  unfold refMitCore
  rw [hurl]

/-- C4 (amended): a reference record whose `url` contains `/mitigations/`
contributes only trailing-slash-free URLs to the mitigation scanner, and
every line the technique scanner writes is trailing-slash-free.  (The
mitigation scanner writes set elements verbatim, so a URL synthesized from an
`external_id` that itself ends in `/` keeps that slash — see the
counterexample theorem.) -/
theorem c4_trailing_slash_stripped (r : JsonValue) (s : String)
    (hurl : r.get? "url" = some (JsonValue.str s))
    (hmit : strContains s "/mitigations/" = true) :
    (∀ u ∈ refMitUrls r, listEndsWith u.toList "/".toList = false) ∧
      ∀ (l : List String), ∀ u ∈ techniqueWrittenLines l,
        listEndsWith u.toList "/".toList = false := by
  constructor
  · intro u hu
    unfold refMitUrls at hu
    by_cases hd : (r.isDict && sourceIsMitre r) = true
    · have hs : s ≠ "" := by
        intro he
        subst he
        exact absurd hmit (by decide)
      have hcond : (s != "" && strContains s "/mitigations/") = true := by
        rw [Bool.and_eq_true]
        exact ⟨bne_iff_ne.mpr hs, hmit⟩
      rw [if_pos hd, refMitCore_url_str r s hurl, if_pos hcond,
        List.mem_singleton] at hu
      subst hu
      exact pyRstripSlashes_no_trailing s
    · rw [if_neg hd] at hu
      exact absurd hu (List.not_mem_nil u)
  · intro l u hu
    unfold techniqueWrittenLines at hu
    rw [List.mem_map] at hu
    obtain ⟨v, _, rfl⟩ := hu
    exact pyRstripSlashes_no_trailing v

/-- A MITRE reference record with no `url` and an `external_id` that itself
ends in a slash. -/
def mitRefSlashId : JsonValue :=
  JsonValue.obj
    [("source_name", JsonValue.str "mitre-attack"),
      ("external_id", JsonValue.str "M1/")]

/-- A bundle containing exactly `mitRefSlashId`. -/
def mitBundleSlashId : JsonValue :=
  JsonValue.obj
    [("objects", JsonValue.arr
      [JsonValue.obj
        [("external_references", JsonValue.arr [mitRefSlashId])]])]

/-- C4 counterexample: the mitigation scanner writes set elements verbatim,
so the URL synthesized from `external_id = "M1/"` produces an output line
that still ends in a trailing slash — "every line of scanner output has any
trailing slash stripped" fails on this input. -/
theorem c4_every_line_stripped_false :
    extract_mitigation_urls [some mitBundleSlashId] =
        {"https://attack.mitre.org/mitigations/M1/"} ∧
      mitigationWrittenLines ["https://attack.mitre.org/mitigations/M1/"] =
        ["https://attack.mitre.org/mitigations/M1/"] ∧
      listEndsWith "https://attack.mitre.org/mitigations/M1/".toList
        "/".toList = true :=
  ⟨by decide, by decide, by decide⟩

/-- A MITRE reference record carrying an explicit mitigation URL with a
trailing slash. -/
def mitRefExplicitSlash : JsonValue :=
  JsonValue.obj
    [("source_name", JsonValue.str "mitre-attack"),
      ("url", JsonValue.str "https://attack.mitre.org/mitigations/M1030/")]

/-- Witness for the amended C4 at concrete inputs. -/
theorem c4_trailing_slash_stripped_witness :
    strContains "https://attack.mitre.org/mitigations/M1030/" "/mitigations/" =
        true ∧
      listEndsWith "https://attack.mitre.org/mitigations/M1030".toList
        "/".toList = false ∧
      listEndsWith "https://attack.mitre.org/techniques/T1548".toList
        "/".toList = false :=
  ⟨by decide,
    (c4_trailing_slash_stripped mitRefExplicitSlash
        "https://attack.mitre.org/mitigations/M1030/" rfl (by decide)).1
      "https://attack.mitre.org/mitigations/M1030" (by decide),
    (c4_trailing_slash_stripped mitRefExplicitSlash
        "https://attack.mitre.org/mitigations/M1030/" rfl (by decide)).2
      ["https://attack.mitre.org/techniques/T1548/"]
      "https://attack.mitre.org/techniques/T1548" (by decide)⟩

/-! ## Determinism of the written output (C2) -/

/-- Two sorted lists that are permutations of each other and whose sort keys
are injective on their elements are equal. -/
theorem sorted_eq_of_perm_of_injKey :
    ∀ {l1 l2 : List String}, l1.Perm l2 → List.Sorted keyLe l1 →
      List.Sorted keyLe l2 →
      (∀ a ∈ l1, ∀ b ∈ l1, keyfn a = keyfn b → a = b) → l1 = l2 := by
  intro l1
  induction l1 with
  | nil =>
    intro l2 hp _ _ _
    exact hp.symm.eq_nil.symm
  | cons a t ih =>
    intro l2 hp hs1 hs2 hinj
    cases l2 with
    | nil => exact absurd hp.eq_nil (List.cons_ne_nil a t)
    | cons b t2 =>
      have ha2 : a ∈ b :: t2 := hp.mem_iff.mp (List.mem_cons_self a t)
      have hb1 : b ∈ a :: t := hp.symm.mem_iff.mp (List.mem_cons_self b t2)
      have hab : keyfn a ≤ keyfn b := by
        rcases List.mem_cons.mp hb1 with heq | hmem
        · rw [heq]
        · exact List.rel_of_sorted_cons hs1 b hmem
      have hba : keyfn b ≤ keyfn a := by
        rcases List.mem_cons.mp ha2 with heq | hmem
        · rw [heq]
        · exact List.rel_of_sorted_cons hs2 a hmem
      have hae : a = b := hinj a (List.mem_cons_self a t) b hb1
        (le_antisymm hab hba)
      subst hae
      have ht2 : t = t2 := by
        refine ih hp.cons_inv hs1.of_cons hs2.of_cons ?_
        intro x hx y hy
        exact hinj x (List.mem_cons_of_mem a hx) y (List.mem_cons_of_mem a hy)
      rw [ht2]

/-- Any two duplicate-free iteration orders of the same URL set sort to the
same line sequence, provided the final path segments are pairwise distinct on
the set. -/
theorem sortUrls_eq_of_enum {e1 e2 : List String}
    (h1 : e1.Nodup) (h2 : e2.Nodup) (hf : e1.toFinset = e2.toFinset)
    (hinj : ∀ a ∈ e1, ∀ b ∈ e1, keyfn a = keyfn b → a = b) :
    sortUrls e1 = sortUrls e2 := by
  have hperm : e1.Perm e2 := List.perm_of_nodup_nodup_toFinset_eq h1 h2 hf
  have hp : (sortUrls e1).Perm (sortUrls e2) :=
    (List.perm_insertionSort keyLe e1).trans
      (hperm.trans (List.perm_insertionSort keyLe e2).symm)
  refine sorted_eq_of_perm_of_injKey hp (List.sorted_insertionSort keyLe e1)
    (List.sorted_insertionSort keyLe e2) ?_
  intro x hx y hy
  exact hinj x ((List.mem_insertionSort keyLe).mp hx)
    y ((List.mem_insertionSort keyLe).mp hy)

/-- C2 (amended): re-running a scanner on identical input produces
byte-identical output whenever the final path segments of the extracted URLs
are pairwise distinct: any two iteration orders of either scanner's set then
render to the same bytes.  (Without that proviso the claim fails, see the
counterexample: Python's set iteration order is unspecified and the sort key
does not separate two URLs sharing a final segment.) -/
theorem c2_deterministic_of_distinct_keys (files : List (Option JsonValue))
    (e1 e2 m1 m2 : List String)
    (he1 : e1.Nodup) (he1f : e1.toFinset = extract_urls files)
    (he2 : e2.Nodup) (he2f : e2.toFinset = extract_urls files)
    (hm1 : m1.Nodup) (hm1f : m1.toFinset = extract_mitigation_urls files)
    (hm2 : m2.Nodup) (hm2f : m2.toFinset = extract_mitigation_urls files)
    (hinjT : ∀ a ∈ e1, ∀ b ∈ e1, keyfn a = keyfn b → a = b)
    (hinjM : ∀ a ∈ m1, ∀ b ∈ m1, keyfn a = keyfn b → a = b) :
    techniqueOutput e1 = techniqueOutput e2 ∧
      mitigationOutput m1 = mitigationOutput m2 := by
  have ht := sortUrls_eq_of_enum he1 he2 (he1f.trans he2f.symm) hinjT
  have hm := sortUrls_eq_of_enum hm1 hm2 (hm1f.trans hm2f.symm) hinjM
  constructor
  · unfold techniqueOutput techniqueWrittenLines
    rw [ht]
  · unfold mitigationOutput mitigationWrittenLines
    rw [hm]

/-- One attack-pattern object with one MITRE reference URL (test fixture). -/
def techObj (url : String) : JsonValue :=
  JsonValue.obj
    [("type", JsonValue.str "attack-pattern"),
      ("external_references", JsonValue.arr
        [JsonValue.obj
          [("source_name", JsonValue.str "mitre-attack"),
            ("url", JsonValue.str url)]])]

/-- A bundle with two distinct technique URLs that share the final path
segment `T1`. -/
def sharedKeyBundle : JsonValue :=
  JsonValue.obj
    [("objects", JsonValue.arr
      [techObj "https://a.example/T1", techObj "https://b.example/T1"])]

/-- C2 counterexample: on this input directory content the technique
scanner's URL set is the same in both runs, yet two legitimate iteration
orders of that set (Python's set iteration order is unspecified across runs)
yield different output bytes, because the sort key `T1` ties and the stable
sort keeps the iteration order.  Byte-identical output is therefore not
guaranteed for every fixed input. -/
theorem c2_byte_identical_false :
    (["https://a.example/T1", "https://b.example/T1"].Nodup ∧
      ["https://a.example/T1", "https://b.example/T1"].toFinset =
        extract_urls [some sharedKeyBundle]) ∧
      (["https://b.example/T1", "https://a.example/T1"].Nodup ∧
        ["https://b.example/T1", "https://a.example/T1"].toFinset =
          extract_urls [some sharedKeyBundle]) ∧
      techniqueOutput ["https://a.example/T1", "https://b.example/T1"] ≠
        techniqueOutput ["https://b.example/T1", "https://a.example/T1"] :=
  ⟨⟨by decide, by decide⟩, ⟨by decide, by decide⟩, by decide⟩

/-- A bundle with one technique reference and one mitigation reference. -/
def simpleBundle : JsonValue :=
  JsonValue.obj
    [("objects", JsonValue.arr
      [techObj "https://attack.mitre.org/techniques/T1548",
        JsonValue.obj
          [("external_references", JsonValue.arr
            [JsonValue.obj
              [("source_name", JsonValue.str "mitre-attack"),
                ("url", JsonValue.str
                  "https://attack.mitre.org/mitigations/M1030")]])]])]

/-- Witness for the amended C2 at a concrete bundle whose URL sets have
pairwise-distinct final segments. -/
theorem c2_deterministic_witness :
    techniqueOutput ["https://attack.mitre.org/techniques/T1548"] =
        techniqueOutput ["https://attack.mitre.org/techniques/T1548"] ∧
      mitigationOutput ["https://attack.mitre.org/mitigations/M1030"] =
        mitigationOutput ["https://attack.mitre.org/mitigations/M1030"] :=
  c2_deterministic_of_distinct_keys [some simpleBundle]
    ["https://attack.mitre.org/techniques/T1548"]
    ["https://attack.mitre.org/techniques/T1548"]
    ["https://attack.mitre.org/mitigations/M1030"]
    ["https://attack.mitre.org/mitigations/M1030"]
    (by decide) (by decide) (by decide) (by decide)
    (by decide) (by decide) (by decide) (by decide)
    (by decide) (by decide)

/-! ## The harvester's input aggregation (C8) -/

/-- Python whitespace for `str.strip()` on the ASCII range. -/
def isPySpace (c : Char) : Bool :=
  c == ' ' || c == '\t' || c == '\n' || c == '\r' || c == '\x0b' || c == '\x0c'

/-- Python `s.strip()` on the ASCII range: drop whitespace from both ends. -/
def pyStrip (s : String) : String :=
  String.mk (((s.toList.dropWhile isPySpace).reverse.dropWhile
    isPySpace).reverse)

/-- Helper for `str.splitlines`: split at `\r\n`, `\r` or `\n`; a trailing
terminator produces no final empty line. -/
def splitlinesAux : List Char → List Char → List (List Char)
  | [], acc => if acc.isEmpty then [] else [acc.reverse]
  | '\r' :: '\n' :: rest, acc => acc.reverse :: splitlinesAux rest []
  | '\r' :: rest, acc => acc.reverse :: splitlinesAux rest []
  | '\n' :: rest, acc => acc.reverse :: splitlinesAux rest []
  | c :: rest, acc => splitlinesAux rest (c :: acc)

/-- Python `s.splitlines()` for the common line terminators. -/
def pySplitlines (s : String) : List String :=
  (splitlinesAux s.toList []).map (fun l => String.mk l)

/-- `read_urls_from_files` (`scripts/save_urls_to_texts.py`, lines 40 to 51):
a nonexistent file (`none`) is logged and skipped; from each existing file's
content, each line is stripped and appended unless blank.  Duplicates are
kept and order is file order then line order. -/
def read_urls_from_files (files : List (Option String)) : List String :=
  files.flatMap (fun f =>
    match f with
    | none => []
    | some content =>
        (pySplitlines content).filterMap (fun line =>
          let u := pyStrip line
          if u == "" then none else some u))

/-- Modelled from the spec (section 4.2, input aggregation), for comparison
with `read_urls_from_files`: the stripped, nonblank lines of each existing
file, in file order then line order, duplicates kept. -/
def specUrlAggregation (files : List (Option String)) : List String :=
  (files.filterMap id).flatMap (fun content =>
    ((pySplitlines content).map pyStrip).filter (fun u => u != ""))

theorem filterMap_strip_eq (lines : List String) :
    lines.filterMap (fun line =>
        let u := pyStrip line
        if u == "" then none else some u) =
      (lines.map pyStrip).filter (fun u => u != "") := by
  induction lines with
  | nil => rfl
  | cons a t ih =>
    rw [List.filterMap_cons, List.map_cons, List.filter_cons]
    by_cases h : pyStrip a = ""
    · have hbeq : (pyStrip a == "") = true := beq_iff_eq.mpr h
      have hbne : ¬((pyStrip a != "") = true) := by
        rw [bne_iff_ne]
        exact fun hne => hne h
      rw [if_pos hbeq, if_neg hbne]
      exact ih
    · have hne : ¬((pyStrip a == "") = true) := by
        rw [beq_iff_eq]
        exact h
      have hbne : (pyStrip a != "") = true := bne_iff_ne.mpr h
      rw [if_neg hne, if_pos hbne]
      exact congrArg (List.cons (pyStrip a)) ih

/-- C8: the harvester's URL aggregation returns exactly the stripped,
nonblank lines of each existing input file, ordered by file position then
line position; nonexistent files are skipped without failing, and duplicate
lines are all kept (both sides are plain line sequences, so multiplicity and
order agree). -/
theorem c8_aggregation_refines_spec (files : List (Option String)) :
    read_urls_from_files files = specUrlAggregation files := by
  unfold read_urls_from_files specUrlAggregation
  induction files with
  | nil => rfl
  | cons f t ih =>
    cases f with
    | none => exact ih
    | some content =>
        exact congrArg₂ (fun x y => x ++ y)
          (filterMap_strip_eq (pySplitlines content)) ih
